import Mathlib

/-!
Verification development for the 3D-Telepresence-Reconstruction recognition
pipeline (src/main.cpp): resolution-adaptive parameter scaling, keypoint
subsampling, descriptor-space correspondence search, and Hough clustering.

Modelling conventions:
* C++ `float`/`double` values are modelled exactly, as `ℚ` where the code
  only adds, multiplies and compares, and as `ℝ` where a square root is
  taken (`computeCloudResolution`) or where scaled radii flow onward.
* A possibly-NaN scalar is modelled as `Option ℚ` (`none` = non-finite);
  a point's validity is a single `finite` flag, following the PCL
  convention that an invalid point has all coordinates non-finite and is
  tested via its x coordinate (`pcl_isfinite((*cloud)[i].x)`).
* The kd-tree (`pcl::search::KdTree` / `pcl::KdTreeFLANN`) is external
  library code; it is modelled by its exact-nearest-neighbour contract:
  the index holds the finite inputs, a k-NN query returns the k closest
  stored entries by squared distance (ties to the earliest index), and a
  query with a non-finite entry yields no admissible neighbour (every
  IEEE comparison against its NaN distances fails).
-/

/-- A cloud point (`pcl::PointXYZRGBA`, colour ignored by the core):
exact coordinates plus a finiteness flag. -/
structure Point where
  x : ℚ
  y : ℚ
  z : ℚ
  finite : Bool
deriving DecidableEq

/-- Squared Euclidean distance between two points. -/
def sqDist (p q : Point) : ℚ :=
  (p.x - q.x) ^ 2 + (p.y - q.y) ^ 2 + (p.z - q.z) ^ 2

/-- The finite points of a cloud: the entries a PCL kd-tree indexes when
the cloud is not dense. -/
def finitePts (c : List Point) : List Point :=
  c.filter (fun p => p.finite)

/-- Minimum of a list of rationals (0 for the empty list; only applied to
nonempty lists below). -/
def minQ : List ℚ → ℚ
  | [] => 0
  | [a] => a
  | a :: b :: rest => min a (minQ (b :: rest))

/-- Second-smallest element of a list, counting multiplicity: the minimum
after removing one occurrence of the minimum.  This is `sqr_distances[1]`
of a k=2 nearest-neighbour query. -/
def secondMin (l : List ℚ) : ℚ :=
  minQ (l.erase (minQ l))

/-- Squared distance from `p` to its second-nearest stored neighbour in the
kd-tree over the finite points of `c` (the nearest being `p` itself at
distance 0 when `p` is a finite member of `c`). -/
def secondNNsq (c : List Point) (p : Point) : ℚ :=
  secondMin ((finitePts c).map (fun q => sqDist p q))

/-- Number of results of a k=2 nearest-neighbour query over the tree built
from `c`: `min 2 (number of stored points)`. -/
def kdNres (c : List Point) : ℕ :=
  min 2 (finitePts c).length

/-- Distance (not squared) from `p` to its second-nearest neighbour in `c`:
the `sqrt(sqr_distances[1])` term accumulated by `computeCloudResolution`. -/
noncomputable def sndDist (c : List Point) (p : Point) : ℝ :=
  Real.sqrt ((secondNNsq c p : ℚ) : ℝ)

/-- One iteration of the `computeCloudResolution` loop (src/main.cpp:126-139):
skip the point if its x coordinate is not finite; otherwise, if the 2-NN
query returned exactly 2 results, accumulate `sqrt(sqr_distances[1])` and
bump `n_points`. -/
noncomputable def resStep (c : List Point) (a : ℝ × ℕ) (p : Point) : ℝ × ℕ :=
  if p.finite then
    if kdNres c = 2 then (a.1 + sndDist c p, a.2 + 1) else a
  else a

/-- `computeCloudResolution` (src/main.cpp:115-145): iterate over the cloud
accumulating second-neighbour distances, then divide by the count if it is
nonzero. -/
noncomputable def computeCloudResolution (c : List Point) : ℝ :=
  let acc := c.foldl (resStep c) (0, 0)
  if acc.2 ≠ 0 then acc.1 / (acc.2 : ℝ) else acc.1

/-- The six tunable scale parameters (globals at src/main.cpp:28-33). -/
structure Config where
  model_ss : ℝ
  scene_ss : ℝ
  rf_rad : ℝ
  descr_rad : ℝ
  cg_size : ℝ
  cg_thresh : ℝ

/-- The literal defaults of src/main.cpp:28-33. -/
noncomputable def defaultConfig : Config :=
  { model_ss := 10, scene_ss := 30, rf_rad := 15, descr_rad := 20
    cg_size := 10, cg_thresh := 5 }

/-- `setUpResolution` (src/main.cpp:163-180): when the model-cloud
resolution is nonzero, multiply `model_ss_`, `scene_ss_`, `rf_rad_`,
`descr_rad_` and `cg_size_` by it; `cg_thresh_` is never touched. -/
noncomputable def setUpResolution (cfg : Config) (model : List Point) : Config :=
  let resolution := computeCloudResolution model
  if resolution ≠ 0 then
    { model_ss := cfg.model_ss * resolution
      scene_ss := cfg.scene_ss * resolution
      rf_rad := cfg.rf_rad * resolution
      descr_rad := cfg.descr_rad * resolution
      cg_size := cfg.cg_size * resolution
      cg_thresh := cfg.cg_thresh }
  else cfg

/-- Concrete test point at the origin. -/
def ptA : Point := { x := 0, y := 0, z := 0, finite := true }

/-- Concrete test point at distance 2 from the origin. -/
def ptB : Point := { x := 2, y := 0, z := 0, finite := true }

/-- A two-point cloud of resolution 2. -/
def cloudTwo : List Point := [ptA, ptB]

/-- A SHOT descriptor (`pcl::SHOT352`): a list of entries, each either a
finite value or `none` for a non-finite (NaN) component.  The concrete
program always has 352 entries; nothing below depends on the length. -/
abbrev Descriptor := List (Option ℚ)

/-- The number of components of a `pcl::SHOT352` descriptor. -/
def descriptorLength : ℕ := 352

/-- All entries of the descriptor are finite (the validity test a PCL
descriptor kd-tree applies to stored and queried points). -/
def allFinite (d : Descriptor) : Bool :=
  d.all (fun e => e.isSome)

/-- The check at src/main.cpp:231: `pcl_isfinite(scene_descriptors->at(i).descriptor[0])`,
i.e. only component 0 is inspected. -/
def headFinite (d : Descriptor) : Bool :=
  match d.head? with
  | some (some _) => true
  | _ => false

/-- The finite values of an all-finite descriptor. -/
def vals (d : Descriptor) : List ℚ :=
  d.reduceOption

/-- Squared L2 distance in descriptor space (what FLANN computes over the
352 components). -/
def sqDescDist (a b : List ℚ) : ℚ :=
  (List.zipWith (fun u v => (u - v) ^ 2) a b).sum

/-- The model descriptors the FLANN index stores, with their original
indices: descriptors with a non-finite entry are never admissible
neighbours (their distance to any finite query is NaN, which fails every
comparison used to enter the result set). -/
def validModel (ms : List Descriptor) : List (ℕ × List ℚ) :=
  (ms.enum.filter (fun p => allFinite p.2)).map (fun p => (p.1, vals p.2))

/-- First (index, distance) pair of minimal distance, ties to the earliest
entry. -/
def argminD : List (ℕ × ℚ) → Option (ℕ × ℚ)
  | [] => none
  | x :: xs => some (xs.foldl (fun b y => if y.2 < b.2 then y else b) x)

/-- The k=1 `nearestKSearch` of `pcl::KdTreeFLANN<SHOT352>` at
src/main.cpp:235, by its contract: for an all-finite query it returns the
stored descriptor of minimal squared distance; a query with a non-finite
entry yields no admissible neighbour (each candidate distance is NaN and
NaN comparisons are false), so nothing is returned. -/
def kdSearch (ms : List Descriptor) (q : Descriptor) : Option (ℕ × ℚ) :=
  if allFinite q then
    argminD ((validModel ms).map (fun p => (p.1, sqDescDist (vals q) p.2)))
  else none

/-- `pcl::Correspondence` (src/main.cpp:238): model keypoint index
(`index_query`), scene keypoint index (`index_match`), squared descriptor
distance. -/
structure Corr where
  index_query : ℕ
  index_match : ℕ
  distance : ℚ
deriving DecidableEq

/-- The loop of `findModelSpaceCorrespondences` (src/main.cpp:227-241),
carrying the current scene index `i`: skip the descriptor when its
component 0 is non-finite; otherwise run the k=1 search and add the match
only when the squared descriptor distance is strictly below 0.25. -/
def corrsAux (ms : List Descriptor) : ℕ → List Descriptor → List Corr
  | _, [] => []
  | i, d :: rest =>
    if headFinite d then
      match kdSearch ms d with
      | some jd =>
          if jd.2 < 1 / 4 then
            { index_query := jd.1, index_match := i, distance := jd.2 }
              :: corrsAux ms (i + 1) rest
          else corrsAux ms (i + 1) rest
      | none => corrsAux ms (i + 1) rest
    else corrsAux ms (i + 1) rest

/-- `findModelSpaceCorrespondences` (src/main.cpp:221-243). -/
def findModelSpaceCorrespondences (ms ss : List Descriptor) : List Corr :=
  corrsAux ms 0 ss

/-- Squared point distance as a real, for comparison against scaled radii. -/
noncomputable def sqDistR (p q : Point) : ℝ :=
  ((sqDist p q : ℚ) : ℝ)

/-- Modelled from the spec: the KeypointSampler of `extractKeypoints`
(src/main.cpp:193-204) is `pcl::UniformSampling`, whose implementation is
external library code; the spec describes the sampler contract as greedy
spatial decimation — repeatedly keep an unvisited point as a keypoint and
mark every point within the sampling radius as visited. -/
noncomputable def greedySample (r : ℝ) : List Point → List Point
  | [] => []
  | p :: rest =>
      p :: greedySample r
        (rest.filter (fun q => @decide ((r ^ 2 : ℝ) < sqDistR q p) (Classical.propDecidable _)))
termination_by l => l.length
decreasing_by
  simp only [List.length_cons]
  exact Nat.lt_succ_of_le (List.length_filter_le _ _)

/-- A surface normal (`pcl::Normal`), produced by external estimation. -/
structure SurfaceNormal where
  nx : ℚ
  ny : ℚ
  nz : ℚ

/-- A 4x4 rigid transform (`Eigen::Matrix4f`). -/
abbrev Transform := Matrix (Fin 4) (Fin 4) ℝ

/-- The external library stages the pipeline calls but whose numeric content
the repository does not define: normal estimation
(`pcl::NormalEstimationOMP`), SHOT description (`pcl::SHOTEstimationOMP`),
the BOARD-frame-based Hough vote of a correspondence (spec section 4.7
step 1), and the least-squares transform fit of a cluster (spec section
4.7 step 4). -/
structure ExternalStages where
  normalsOf : List Point → List SurfaceNormal
  shotOf : ℝ → List Point → List Point → List SurfaceNormal → List Descriptor
  voteOf : ℝ → List Point → List Point → Corr → ℝ × ℝ × ℝ
  estimateT : List Corr → Transform

/-- Modelled from the spec: the Hough bin of a vote — cubic bins of edge
length `s` (spec section 4.7 step 2). -/
noncomputable def voteBin (s : ℝ) (v : ℝ × ℝ × ℝ) : ℤ × ℤ × ℤ :=
  (⌊v.1 / s⌋, ⌊v.2.1 / s⌋, ⌊v.2.2 / s⌋)

/-- Modelled from the spec: `pcl::Hough3DGrouping::recognize`
(src/main.cpp:264-277) is external library code; per spec section 4.7 it
accumulates each correspondence's vote into a cubic bin, keeps the bins
whose vote count exceeds the clustering threshold (first-discovered
order), and emits one pose hypothesis per accepted bin: the least-squares
transform of the bin's supporting correspondences, paired with that
support set.  The two returned lists are the parallel vectors
`rototranslations` and `clustered_corrs` of the C++ interface. -/
noncomputable def clusteringUsingHough3D (est : List Corr → Transform)
    (vote : Corr → ℝ × ℝ × ℝ) (s thresh : ℝ) (corrs : List Corr) :
    List Transform × List (List Corr) :=
  let binOf : Corr → ℤ × ℤ × ℤ := fun c => voteBin s (vote c)
  let bins := (corrs.map binOf).dedup
  let accepted := bins.filter
    (fun b => decide (thresh < (((corrs.filter (fun c => decide (binOf c = b))).length : ℕ) : ℝ)))
  let clusters := accepted.map (fun b => corrs.filter (fun c => decide (binOf c = b)))
  (clusters.map est, clusters)

/-- The global result state filled by the pipeline (src/main.cpp:36-48). -/
structure PipelineOutput where
  model_keypoints : List Point
  scene_keypoints : List Point
  model_scene_corrs : List Corr
  rototranslations : List Transform
  clustered_corrs : List (List Corr)

/-- The stage sequence of `main` after resolution setup
(src/main.cpp:380-397): normals, keypoints, descriptors, correspondences,
clustering — every stage runs unconditionally on the given configuration. -/
noncomputable def runStages (ext : ExternalStages) (cfg : Config)
    (model scene : List Point) : PipelineOutput :=
  let mn := ext.normalsOf model
  let sn := ext.normalsOf scene
  let mk := greedySample cfg.model_ss model
  let sk := greedySample cfg.scene_ss scene
  let md := ext.shotOf cfg.descr_rad mk model mn
  let sd := ext.shotOf cfg.descr_rad sk scene sn
  let corrs := findModelSpaceCorrespondences md sd
  let rc := clusteringUsingHough3D ext.estimateT (ext.voteOf cfg.rf_rad mk sk)
    cfg.cg_size cfg.cg_thresh corrs
  { model_keypoints := mk, scene_keypoints := sk, model_scene_corrs := corrs,
    rototranslations := rc.1, clustered_corrs := rc.2 }

/-- The full pipeline of `main` (src/main.cpp:375-397): resolution setup,
then all stages on the possibly rescaled configuration. -/
noncomputable def runPipeline (ext : ExternalStages) (cfg : Config)
    (model scene : List Point) : PipelineOutput :=
  runStages ext (setUpResolution cfg model) model scene

/-- A trivial instantiation of the external stages, for concrete runs. -/
noncomputable def trivExt : ExternalStages :=
  { normalsOf := fun _ => []
    shotOf := fun _ _ _ _ => []
    voteOf := fun _ _ _ _ => (0, 0, 0)
    estimateT := fun _ => 1 }

/-- The results of the external `pcl::console` helpers that
`parseCommandLine` (src/main.cpp:73-113) consumes: whether each switch is
present, the arguments carrying a `.pcd` extension in order, and the value
following each `--flag` when present. -/
structure CmdIn where
  hasH : Bool
  hasK : Bool
  hasC : Bool
  pcdFiles : List String
  optVal : String → Option ℝ

/-- What `parseCommandLine` leaves in the globals on success. -/
structure ParseResult where
  cfg : Config
  model_filename : String
  scene_filename : String
  show_keypoints : Bool
  show_correspondences : Bool

def optModelSS : String := "--model_ss"

def optSceneSS : String := "--scene_ss"

def optRfRad : String := "--rf_rad"

def optDescrRad : String := "--descr_rad"

def optCgSize : String := "--cg_size"

def optCgThresh : String := "--cg_thresh"

/-- `parseCommandLine` (src/main.cpp:73-113): `-h` exits with 0; anything
other than exactly two `.pcd` filenames exits with -1; otherwise each
`--flag` value overrides its default.  No value is validated: radii less
than or equal to 0 are accepted unchanged. -/
noncomputable def parseCommandLine (c : CmdIn) : Except Int ParseResult :=
  if c.hasH then .error 0
  else if h2 : c.pcdFiles.length = 2 then
    .ok
      { cfg :=
          { model_ss := (c.optVal optModelSS).getD 10
            scene_ss := (c.optVal optSceneSS).getD 30
            rf_rad := (c.optVal optRfRad).getD 15
            descr_rad := (c.optVal optDescrRad).getD 20
            cg_size := (c.optVal optCgSize).getD 10
            cg_thresh := (c.optVal optCgThresh).getD 5 }
        model_filename := c.pcdFiles.get ⟨0, by omega⟩
        scene_filename := c.pcdFiles.get ⟨1, by omega⟩
        show_keypoints := c.hasK
        show_correspondences := c.hasC }
  else .error (-1)

/-- `main` (src/main.cpp:359-406): parse, load the two clouds (failure
returns -1), then run every pipeline stage and return the filled result
state. -/
noncomputable def mainRun (c : CmdIn) (loadCloud : String → Option (List Point))
    (ext : ExternalStages) : Except Int PipelineOutput :=
  match parseCommandLine c with
  | .error code => .error code
  | .ok pr =>
    match loadCloud pr.model_filename, loadCloud pr.scene_filename with
    | some m, some s => .ok (runPipeline ext pr.cfg m s)
    | _, _ => .error (-1)

def fileA : String := "model.pcd"

def fileB : String := "scene.pcd"

/-- A command line passing a nonpositive model sampling radius. -/
noncomputable def cmdNeg : CmdIn :=
  { hasH := false, hasK := false, hasC := false, pcdFiles := [fileA, fileB]
    optVal := fun f => if f = optModelSS then some (-1) else none }

/-- The configuration `cmdNeg` parses to. -/
noncomputable def cfgNeg : Config :=
  { model_ss := -1, scene_ss := 30, rf_rad := 15, descr_rad := 20
    cg_size := 10, cg_thresh := 5 }

/-- The parse result of `cmdNeg`. -/
noncomputable def prNeg : ParseResult :=
  { cfg := cfgNeg, model_filename := fileA, scene_filename := fileB
    show_keypoints := false, show_correspondences := false }

/-- A cloud loader that always yields the empty cloud. -/
def loadEmpty : String → Option (List Point) := fun _ => some []

/-- A one-component all-finite zero descriptor. -/
def descZero : Descriptor := [some 0]

/-- A one-component descriptor whose only entry is non-finite. -/
def descBad : Descriptor := [none]

-- Helper lemmas on the resolution computation.

theorem minQ_cons_cons (a b : ℚ) (rest : List ℚ) :
    minQ (a :: b :: rest) = min a (minQ (b :: rest)) := rfl

theorem res_cloudTwo : computeCloudResolution cloudTwo = 2 := by
  have h4 : Real.sqrt (4 : ℝ) = 2 := by
    rw [show (4 : ℝ) = (2 : ℝ) ^ 2 by norm_num]
    exact Real.sqrt_sq (by norm_num)
  have h0 : Real.sqrt ((0 : ℚ) : ℝ) = 0 := by
    simp
  have hb1 : ((4 : ℚ) == 0) = false := by decide
  have hb2 : ((0 : ℚ) == 0) = true := by decide
  simp only [computeCloudResolution, resStep, cloudTwo, ptA, ptB, kdNres, finitePts,
    List.filter, List.foldl, sndDist, secondNNsq, secondMin, minQ, sqDist,
    List.map, List.erase, List.length] at *
  norm_num [hb1, hb2, minQ, h4]

theorem res_single : computeCloudResolution [ptA] = 0 := by
  simp [computeCloudResolution, resStep, kdNres, finitePts, ptA]

theorem resStep_finite (c : List Point) (h : kdNres c = 2) (a : ℝ × ℕ) (p : Point)
    (hp : p.finite = true) : resStep c a p = (a.1 + sndDist c p, a.2 + 1) := by
  simp [resStep, hp, h]

theorem resStep_skip (c : List Point) (a : ℝ × ℕ) (p : Point)
    (hp : ¬ p.finite = true) : resStep c a p = a := by
  simp [resStep, hp]

theorem resFold (c : List Point) (h : kdNres c = 2) (l : List Point) (a : ℝ) (n : ℕ) :
    l.foldl (resStep c) (a, n)
      = (a + ((l.filter (fun p => p.finite)).map (fun p => sndDist c p)).sum,
         n + (l.filter (fun p => p.finite)).length) := by
  induction l generalizing a n with
  | nil => simp
  | cons p rest ih =>
      rw [List.foldl_cons]
      by_cases hp : p.finite
      · rw [resStep_finite c h (a, n) p hp, ih]
        have hcons : List.filter (fun q : Point => q.finite) (p :: rest)
            = p :: List.filter (fun q : Point => q.finite) rest := by
          simp [List.filter_cons, hp]
        rw [hcons]
        simp only [List.map_cons, List.sum_cons, List.length_cons, Prod.mk.injEq]
        constructor
        · ring
        · omega
      · rw [resStep_skip c (a, n) p hp, ih]
        have hcons : List.filter (fun q : Point => q.finite) (p :: rest)
            = List.filter (fun q : Point => q.finite) rest := by
          simp [List.filter_cons, hp]
        rw [hcons]

theorem resFoldNo (c : List Point) (h : ¬ kdNres c = 2) (l : List Point) (a : ℝ) (n : ℕ) :
    l.foldl (resStep c) (a, n) = (a, n) := by
  induction l generalizing a n with
  | nil => rfl
  | cons p rest ih =>
      rw [List.foldl_cons]
      by_cases hp : p.finite
      · have : resStep c (a, n) p = (a, n) := by simp [resStep, hp, h]
        rw [this, ih]
      · rw [resStep_skip c (a, n) p hp, ih]

/-- C2: `computeCloudResolution` returns the mean, over the finite points of
the cloud (each of whose 2-nearest-neighbour queries returns exactly 2
results, i.e. `kdNres c = 2`), of the distance to the second nearest
neighbour; non-finite points are skipped and contribute nothing; when no
point qualifies the result is 0. -/
theorem C2_computeCloudResolution_mean (c : List Point) :
    computeCloudResolution c =
      if kdNres c = 2 then
        ((finitePts c).map (fun p => sndDist c p)).sum / ((finitePts c).length : ℝ)
      else 0 := by
  have hfin : List.filter (fun p => p.finite) c = finitePts c := rfl
  by_cases h : kdNres c = 2
  · have hlen : 2 ≤ (finitePts c).length := by
      have h2 := h
      unfold kdNres at h2
      omega
    rw [if_pos h]
    show (let acc := c.foldl (resStep c) (0, 0);
      if acc.2 ≠ 0 then acc.1 / (acc.2 : ℝ) else acc.1) = _
    rw [resFold c h c 0 0, hfin]
    have hne : (0 + (finitePts c).length) ≠ 0 := by omega
    simp only [hne, ne_eq, not_false_iff, if_true]
    simp
  · rw [if_neg h]
    show (let acc := c.foldl (resStep c) (0, 0);
      if acc.2 ≠ 0 then acc.1 / (acc.2 : ℝ) else acc.1) = _
    rw [resFoldNo c h c 0 0]
    simp

/-- C1 counterexample: on a two-point cloud of resolution 2 with the default
configuration, the clustering threshold is not multiplied by the
resolution, contradicting the claim that all six parameters are scaled. -/
theorem C1_cg_thresh_not_scaled_cex :
    computeCloudResolution cloudTwo ≠ 0 ∧
    (setUpResolution defaultConfig cloudTwo).cg_thresh
      ≠ defaultConfig.cg_thresh * computeCloudResolution cloudTwo := by
  have h2 : computeCloudResolution cloudTwo = 2 := res_cloudTwo
  constructor
  · rw [h2]; norm_num
  · rw [setUpResolution, h2]
    simp only [defaultConfig]
    norm_num

/-- C1 amended: after resolution setup with a nonzero resolution, the five
radius/size parameters (model_ss, scene_ss, rf_rad, descr_rad, cg_size)
each equal their input value multiplied by the resolution, while cg_thresh
always retains its literal input value. -/
theorem C1_setUpResolution_scales (cfg : Config) (model : List Point)
    (h : computeCloudResolution model ≠ 0) :
    (setUpResolution cfg model).model_ss = cfg.model_ss * computeCloudResolution model ∧
    (setUpResolution cfg model).scene_ss = cfg.scene_ss * computeCloudResolution model ∧
    (setUpResolution cfg model).rf_rad = cfg.rf_rad * computeCloudResolution model ∧
    (setUpResolution cfg model).descr_rad = cfg.descr_rad * computeCloudResolution model ∧
    (setUpResolution cfg model).cg_size = cfg.cg_size * computeCloudResolution model ∧
    (setUpResolution cfg model).cg_thresh = cfg.cg_thresh := by
  simp [setUpResolution, h]

/-- C1 amended, witnessed on a concrete cloud of resolution 2. -/
theorem C1_setUpResolution_scales_witness :
    computeCloudResolution cloudTwo ≠ 0 ∧
    ((setUpResolution defaultConfig cloudTwo).model_ss
        = defaultConfig.model_ss * computeCloudResolution cloudTwo ∧
      (setUpResolution defaultConfig cloudTwo).scene_ss
        = defaultConfig.scene_ss * computeCloudResolution cloudTwo ∧
      (setUpResolution defaultConfig cloudTwo).rf_rad
        = defaultConfig.rf_rad * computeCloudResolution cloudTwo ∧
      (setUpResolution defaultConfig cloudTwo).descr_rad
        = defaultConfig.descr_rad * computeCloudResolution cloudTwo ∧
      (setUpResolution defaultConfig cloudTwo).cg_size
        = defaultConfig.cg_size * computeCloudResolution cloudTwo ∧
      (setUpResolution defaultConfig cloudTwo).cg_thresh = defaultConfig.cg_thresh) := by
  have h : computeCloudResolution cloudTwo ≠ 0 := by
    rw [res_cloudTwo]; norm_num
  exact ⟨h, C1_setUpResolution_scales defaultConfig cloudTwo h⟩

-- Matcher lemmas: characterisation of the correspondences the loop emits.

theorem corrsAux_mem (ms : List Descriptor) (ss : List Descriptor) (i : ℕ) (c : Corr)
    (h : c ∈ corrsAux ms i ss) :
    i ≤ c.index_match ∧
    ∃ d, ss.get? (c.index_match - i) = some d ∧ headFinite d = true ∧
      kdSearch ms d = some (c.index_query, c.distance) ∧ c.distance < 1 / 4 := by
  induction ss generalizing i with
  | nil => simp [corrsAux] at h
  | cons d rest ih =>
      have htail : c ∈ corrsAux ms (i + 1) rest →
          i ≤ c.index_match ∧
          ∃ d', (d :: rest).get? (c.index_match - i) = some d' ∧ headFinite d' = true ∧
            kdSearch ms d' = some (c.index_query, c.distance) ∧ c.distance < 1 / 4 := by
        intro hmem
        obtain ⟨hle, d', hget, hhf, hkd, hdist⟩ := ih (i + 1) hmem
        refine ⟨by omega, d', ?_, hhf, hkd, hdist⟩
        have hidx : c.index_match - i = (c.index_match - (i + 1)) + 1 := by omega
        rw [hidx, List.get?_cons_succ]
        exact hget
      simp only [corrsAux] at h
      by_cases hf : headFinite d = true
      · simp only [hf, if_true] at h
        cases hk : kdSearch ms d with
        | none =>
            simp only [hk] at h
            exact htail h
        | some jd =>
            simp only [hk] at h
            by_cases hlt : jd.2 < 1 / 4
            · simp only [hlt, if_true] at h
              rcases List.mem_cons.mp h with hc | hc
              · subst hc
                refine ⟨le_refl i, d, ?_, hf, ?_, hlt⟩
                · simp
                · simpa using hk
              · exact htail hc
            · simp only [hlt, if_false] at h
              exact htail h
      · simp only [hf, if_false] at h
        exact htail h

theorem corrsAux_pairwise (ms : List Descriptor) (ss : List Descriptor) (i : ℕ) :
    List.Pairwise (fun a b => a.index_match < b.index_match) (corrsAux ms i ss) := by
  induction ss generalizing i with
  | nil => simp [corrsAux]
  | cons d rest ih =>
      simp only [corrsAux]
      by_cases hf : headFinite d = true
      · simp only [hf, if_true]
        cases hk : kdSearch ms d with
        | none => simp only [hk]; exact ih (i + 1)
        | some jd =>
            simp only [hk]
            by_cases hlt : jd.2 < 1 / 4
            · simp only [hlt, if_true]
              refine List.Pairwise.cons ?_ (ih (i + 1))
              intro b hb
              have hlb := (corrsAux_mem ms rest (i + 1) b hb).1
              show i < b.index_match
              omega
            · simp only [hlt, if_false]; exact ih (i + 1)
      · simp only [hf, if_false]; exact ih (i + 1)

theorem corrsAux_length_le (ms : List Descriptor) (ss : List Descriptor) (i : ℕ) :
    (corrsAux ms i ss).length ≤ ss.length := by
  induction ss generalizing i with
  | nil => simp [corrsAux]
  | cons d rest ih =>
      simp only [corrsAux, List.length_cons]
      by_cases hf : headFinite d = true
      · simp only [hf, if_true]
        cases hk : kdSearch ms d with
        | none =>
            simp only [hk]
            exact le_trans (ih (i + 1)) (Nat.le_succ _)
        | some jd =>
            simp only [hk]
            by_cases hlt : jd.2 < 1 / 4
            · simp only [hlt, if_true, List.length_cons]
              exact Nat.succ_le_succ (ih (i + 1))
            · simp only [hlt, if_false]
              exact le_trans (ih (i + 1)) (Nat.le_succ _)
      · simp only [hf, if_false]
        exact le_trans (ih (i + 1)) (Nat.le_succ _)

/-- C3: a Correspondence is emitted only when the k=1 nearest-neighbour
search over the model descriptors succeeds for that scene descriptor and
the squared descriptor distance is strictly below 0.25; hence no emitted
Correspondence has squared distance at least 0.25. -/
theorem C3_corr_distance_below_threshold (ms ss : List Descriptor) (c : Corr)
    (h : c ∈ findModelSpaceCorrespondences ms ss) :
    (∃ d, ss.get? c.index_match = some d ∧
        kdSearch ms d = some (c.index_query, c.distance)) ∧
    c.distance < 1 / 4 := by
  obtain ⟨hle, d, hget, hhf, hkd, hdist⟩ := corrsAux_mem ms ss 0 c h
  refine ⟨⟨d, ?_, hkd⟩, hdist⟩
  simpa using hget

theorem corrs_zz : findModelSpaceCorrespondences [descZero] [descZero] = [⟨0, 0, 0⟩] := by
  norm_num [findModelSpaceCorrespondences, corrsAux, kdSearch, validModel, allFinite,
    headFinite, vals, sqDescDist, argminD, descZero, List.enum, List.enumFrom]

theorem corrs_bz :
    findModelSpaceCorrespondences [descZero] [descBad, descZero] = [⟨0, 1, 0⟩] := by
  norm_num [findModelSpaceCorrespondences, corrsAux, kdSearch, validModel, allFinite,
    headFinite, vals, sqDescDist, argminD, descZero, descBad, List.enum, List.enumFrom]

theorem corrs_zzz :
    findModelSpaceCorrespondences [descZero] [descZero, descZero]
      = [⟨0, 0, 0⟩, ⟨0, 1, 0⟩] := by
  norm_num [findModelSpaceCorrespondences, corrsAux, kdSearch, validModel, allFinite,
    headFinite, vals, sqDescDist, argminD, descZero, List.enum, List.enumFrom]

/-- C3 witnessed on a one-descriptor model and scene with a perfect match. -/
theorem C3_corr_distance_below_threshold_witness :
    (⟨0, 0, 0⟩ : Corr) ∈ findModelSpaceCorrespondences [descZero] [descZero] ∧
    ((∃ d, [descZero].get? (⟨0, 0, 0⟩ : Corr).index_match = some d ∧
        kdSearch [descZero] d
          = some ((⟨0, 0, 0⟩ : Corr).index_query, (⟨0, 0, 0⟩ : Corr).distance)) ∧
      (⟨0, 0, 0⟩ : Corr).distance < 1 / 4) := by
  have hmem : (⟨0, 0, 0⟩ : Corr) ∈ findModelSpaceCorrespondences [descZero] [descZero] := by
    rw [corrs_zz]
    simp
  exact ⟨hmem, C3_corr_distance_below_threshold [descZero] [descZero] ⟨0, 0, 0⟩ hmem⟩

/-- C4: a scene descriptor containing a non-finite entry in any component is
excluded from matching: no Correspondence is emitted whose scene index
points at it.  (The code's explicit test covers only component 0; a
descriptor that passes it but has another non-finite component yields no
admissible neighbour from the search, so it is excluded there.) -/
theorem C4_nonfinite_descriptor_excluded (ms ss : List Descriptor) (i : ℕ) (d : Descriptor)
    (hd : ss.get? i = some d) (hnf : none ∈ d) (c : Corr)
    (hc : c ∈ findModelSpaceCorrespondences ms ss) :
    c.index_match ≠ i := by
  intro heq
  obtain ⟨-, d', hget, hhf, hkd, -⟩ := corrsAux_mem ms ss 0 c hc
  rw [Nat.sub_zero, heq, hd] at hget
  have hdd : d' = d := by
    exact (Option.some.inj hget).symm
  subst hdd
  have hall : allFinite d' = false := by
    apply Bool.eq_false_iff.mpr
    intro hall
    have := List.all_eq_true.mp hall none hnf
    simp at this
  have hnone : kdSearch ms d' = none := by
    simp [kdSearch, hall]
  rw [hnone] at hkd
  exact Option.noConfusion hkd

/-- C4 witnessed: the first scene descriptor is non-finite, the second is
valid; the only emitted correspondence targets scene index 1, not 0. -/
theorem C4_nonfinite_descriptor_excluded_witness :
    ([descBad, descZero].get? 0 = some descBad) ∧ (none ∈ descBad) ∧
    ((⟨0, 1, 0⟩ : Corr) ∈ findModelSpaceCorrespondences [descZero] [descBad, descZero]) ∧
    (⟨0, 1, 0⟩ : Corr).index_match ≠ 0 := by
  refine ⟨rfl, by simp [descBad], by rw [corrs_bz]; simp, ?_⟩
  exact C4_nonfinite_descriptor_excluded [descZero] [descBad, descZero] 0 descBad
    rfl (by simp [descBad]) ⟨0, 1, 0⟩ (by rw [corrs_bz]; simp)

/-- C5: in the emitted correspondence list each scene keypoint index
appears at most once, the number of correspondences is at most the number
of scene descriptors, and (witnessed concretely) the same model index may
appear in several Correspondences. -/
theorem C5_scene_index_at_most_once (ms ss : List Descriptor) :
    List.Pairwise (fun a b => a.index_match ≠ b.index_match)
      (findModelSpaceCorrespondences ms ss) ∧
    (findModelSpaceCorrespondences ms ss).length ≤ ss.length ∧
    (∃ c1 c2 : Corr,
      c1 ∈ findModelSpaceCorrespondences [descZero] [descZero, descZero] ∧
      c2 ∈ findModelSpaceCorrespondences [descZero] [descZero, descZero] ∧
      c1 ≠ c2 ∧ c1.index_query = c2.index_query) := by
  refine ⟨?_, corrsAux_length_le ms ss 0, ?_⟩
  · exact (corrsAux_pairwise ms ss 0).imp (fun h => Nat.ne_of_lt h)
  · exact ⟨⟨0, 0, 0⟩, ⟨0, 1, 0⟩, by rw [corrs_zzz]; simp, by rw [corrs_zzz]; simp,
      by simp, rfl⟩

-- Sampler lemmas (spec-modelled greedy decimation).

theorem greedySample_cons (r : ℝ) (p : Point) (rest : List Point) :
    greedySample r (p :: rest)
      = p :: greedySample r
          (rest.filter
            (fun q => @decide ((r ^ 2 : ℝ) < sqDistR q p) (Classical.propDecidable _))) := by
  rw [greedySample]

theorem sqDist_comm (p q : Point) : sqDist p q = sqDist q p := by
  unfold sqDist
  ring

theorem sqDistR_comm (p q : Point) : sqDistR p q = sqDistR q p := by
  unfold sqDistR
  rw [sqDist_comm]

theorem sqDistR_self (p : Point) : sqDistR p p = 0 := by
  unfold sqDistR sqDist
  norm_num

theorem greedySample_subset (r : ℝ) (l : List Point) : greedySample r l ⊆ l := by
  induction l using greedySample.induct r with
  | case1 => simp [greedySample]
  | case2 p rest ih =>
      rw [greedySample_cons]
      intro a ha
      rcases List.mem_cons.mp ha with h | h
      · simp [h]
      · exact List.mem_cons_of_mem _ (List.mem_of_mem_filter (ih h))

theorem greedySample_separation (r : ℝ) (l : List Point) :
    List.Pairwise (fun p q => (r ^ 2 : ℝ) < sqDistR p q) (greedySample r l) := by
  induction l using greedySample.induct r with
  | case1 => simp [greedySample]
  | case2 p rest ih =>
      rw [greedySample_cons]
      refine List.Pairwise.cons ?_ ih
      intro b hb
      have hmem := greedySample_subset r _ hb
      have hq := List.of_mem_filter hmem
      rw [sqDistR_comm]
      exact of_decide_eq_true hq

theorem greedySample_coverage (r : ℝ) (l : List Point) (p : Point) (hp : p ∈ l) :
    ∃ k ∈ greedySample r l, sqDistR p k ≤ r ^ 2 := by
  induction l using greedySample.induct r with
  | case1 => simp at hp
  | case2 q rest ih =>
      rw [greedySample_cons]
      rcases List.mem_cons.mp hp with h | h
      · subst h
        exact ⟨p, List.mem_cons_self _ _, by rw [sqDistR_self]; positivity⟩
      · by_cases hc : (r ^ 2 : ℝ) < sqDistR p q
        · have hpf : p ∈ rest.filter
              (fun q2 => @decide ((r ^ 2 : ℝ) < sqDistR q2 q) (Classical.propDecidable _)) :=
            List.mem_filter.mpr ⟨h, decide_eq_true hc⟩
          obtain ⟨k, hk, hdk⟩ := ih hpf
          exact ⟨k, List.mem_cons_of_mem _ hk, hdk⟩
        · push_neg at hc
          exact ⟨q, List.mem_cons_self _ _, hc⟩

/-- C9: for every input cloud and sampling radius, the sampler's output
keypoints are pairwise more than the radius apart (squared distances
strictly above the squared radius, hence distances at least the radius),
and every input point has an output keypoint within the radius (squared
distance at most the squared radius). -/
theorem C9_sampler_separation_coverage (r : ℝ) (cloud : List Point) :
    List.Pairwise (fun p q => (r ^ 2 : ℝ) < sqDistR p q) (greedySample r cloud) ∧
    ∀ p ∈ cloud, ∃ k ∈ greedySample r cloud, sqDistR p k ≤ r ^ 2 :=
  ⟨greedySample_separation r cloud, fun p hp => greedySample_coverage r cloud p hp⟩

/-- C9 coverage witnessed on a singleton cloud. -/
theorem C9_sampler_separation_coverage_witness :
    ∃ k ∈ greedySample 1 [ptA], sqDistR ptA k ≤ 1 ^ 2 :=
  (C9_sampler_separation_coverage 1 [ptA]).2 ptA (by simp)

/-- C6: when the computed model-cloud resolution is zero, all scale
parameters keep exactly their literal input values, and the pipeline still
runs every subsequent stage (the stage sequence is applied unchanged to
the unscaled configuration instead of aborting). -/
theorem C6_zero_resolution_unscaled (ext : ExternalStages) (cfg : Config)
    (model scene : List Point) (h : computeCloudResolution model = 0) :
    setUpResolution cfg model = cfg ∧
    runPipeline ext cfg model scene = runStages ext cfg model scene := by
  have hs : setUpResolution cfg model = cfg := by
    simp [setUpResolution, h]
  exact ⟨hs, by rw [runPipeline, hs]⟩

/-- C6 witnessed on a single-point cloud, whose resolution is zero. -/
theorem C6_zero_resolution_unscaled_witness :
    computeCloudResolution [ptA] = 0 ∧
    (setUpResolution defaultConfig [ptA] = defaultConfig ∧
      runPipeline trivExt defaultConfig [ptA] []
        = runStages trivExt defaultConfig [ptA] []) :=
  ⟨res_single, C6_zero_resolution_unscaled trivExt defaultConfig [ptA] [] res_single⟩

/-- C8: the pipeline output is a function of the model cloud, scene cloud and
configuration alone: two runs on identical inputs yield identical pose
hypotheses and supporting correspondence sets. -/
theorem C8_pipeline_deterministic (ext : ExternalStages) (cfg1 cfg2 : Config)
    (m1 m2 s1 s2 : List Point) (hc : cfg1 = cfg2) (hm : m1 = m2) (hs : s1 = s2) :
    runPipeline ext cfg1 m1 s1 = runPipeline ext cfg2 m2 s2 := by
  rw [hc, hm, hs]

/-- C8 witnessed at a concrete repeated run. -/
theorem C8_pipeline_deterministic_witness :
    runPipeline trivExt defaultConfig cloudTwo []
      = runPipeline trivExt defaultConfig cloudTwo [] :=
  C8_pipeline_deterministic trivExt defaultConfig defaultConfig cloudTwo cloudTwo [] []
    rfl rfl rfl

/-- C10: the recovered transforms and the clustered correspondence sets
always have equal length — the clusterer emits one transform per accepted
cluster — so indexing the clustered correspondences at any instance index
below the number of recognised instances is in bounds. -/
theorem C10_transforms_clusters_length (ext : ExternalStages) (cfg : Config)
    (model scene : List Point) :
    (runPipeline ext cfg model scene).rototranslations.length
      = (runPipeline ext cfg model scene).clustered_corrs.length ∧
    ∀ i : Fin (runPipeline ext cfg model scene).rototranslations.length,
      (i : ℕ) < (runPipeline ext cfg model scene).clustered_corrs.length := by
  have hmain : (runPipeline ext cfg model scene).rototranslations.length
      = (runPipeline ext cfg model scene).clustered_corrs.length := by
    simp [runPipeline, runStages, clusteringUsingHough3D]
  exact ⟨hmain, fun i => hmain ▸ i.isLt⟩

-- Command-line lemmas.

theorem parse_cmdNeg : parseCommandLine cmdNeg = .ok prNeg := by
  have h1 : optSceneSS ≠ optModelSS := by decide
  have h2 : optRfRad ≠ optModelSS := by decide
  have h3 : optDescrRad ≠ optModelSS := by decide
  have h4 : optCgSize ≠ optModelSS := by decide
  have h5 : optCgThresh ≠ optModelSS := by decide
  simp [parseCommandLine, cmdNeg, prNeg, cfgNeg, h1, h2, h3, h4, h5]

/-- C7 counterexample: a configuration with the model sampling radius
set to -1 is accepted by `parseCommandLine` and the whole pipeline still
runs to completion — the program has no fail-fast validation of
nonpositive radii. -/
theorem C7_no_radius_validation_cex :
    (parseCommandLine cmdNeg).toOption.map (fun pr => pr.cfg.model_ss) = some (-1) ∧
    (mainRun cmdNeg loadEmpty trivExt).isOk = true := by
  constructor
  · rw [parse_cmdNeg]
    simp [prNeg, cfgNeg, Except.toOption]
  · simp [mainRun, parse_cmdNeg, loadEmpty, Except.isOk, Except.toBool]

/-- C7 amended: `parseCommandLine` performs no validation of the radius
parameters — it succeeds exactly when `-h` is absent and exactly two
`.pcd` filenames are present, whatever the numeric option values
(including radii at or below 0) — and after a successful parse and
successful cloud loads the program runs the full pipeline, aborting
nowhere. -/
theorem C7_parse_no_validation (c : CmdIn) (loadCloud : String → Option (List Point))
    (ext : ExternalStages) :
    ((parseCommandLine c).isOk = true ↔ (c.hasH = false ∧ c.pcdFiles.length = 2)) ∧
    ∀ pr m s, parseCommandLine c = .ok pr →
      loadCloud pr.model_filename = some m → loadCloud pr.scene_filename = some s →
      mainRun c loadCloud ext = .ok (runPipeline ext pr.cfg m s) := by
  constructor
  · constructor
    · intro hok
      by_cases hh : c.hasH
      · simp [parseCommandLine, hh, Except.isOk, Except.toBool] at hok
      · by_cases h2 : c.pcdFiles.length = 2
        · exact ⟨by simpa using hh, h2⟩
        · simp [parseCommandLine, hh, h2, Except.isOk, Except.toBool] at hok
    · rintro ⟨hh, h2⟩
      simp [parseCommandLine, hh, h2, Except.isOk, Except.toBool]
  · intro pr m s hpr hm hs
    simp [mainRun, hpr, hm, hs]

/-- C7 amended, witnessed on the nonpositive-radius command line. -/
theorem C7_parse_no_validation_witness :
    ((parseCommandLine cmdNeg).isOk = true
      ↔ (cmdNeg.hasH = false ∧ cmdNeg.pcdFiles.length = 2)) ∧
    mainRun cmdNeg loadEmpty trivExt = .ok (runPipeline trivExt cfgNeg [] []) := by
  refine ⟨(C7_parse_no_validation cmdNeg loadEmpty trivExt).1, ?_⟩
  have hrun := (C7_parse_no_validation cmdNeg loadEmpty trivExt).2 prNeg [] []
    parse_cmdNeg rfl rfl
  simpa [prNeg] using hrun
